import Mathlib

/-
Verification development for the multi-chain wallet key-management core
(encryption codec, secure storage manager, wallet account registry).

The development is a shallow embedding of the TypeScript sources:
  - lib/encryption.ts        : encrypt / decrypt / decryptLegacy
  - lib/storage.ts (current) : saveEncryptedWalletData, loadEncryptedWalletData,
                               getWalletDataStatus, saveWalletState, loadWalletState,
                               migrateToSecureStorage, and helpers
  - lib/walletUtils.ts       : generateWallet
  - contexts/WalletContext.tsx : addNewAccount, deleteAccount, unlockWallet

Modelling conventions:
  - localStorage is a record of the four slots used by the code
    (mnemonic slot, legacy wallet slot, secure wallet slot, network slot);
    a slot holds the parsed shape of its JSON content, with a constructor
    for content on which JSON.parse throws.
  - the random salt and IV drawn inside encrypt are threaded as explicit
    arguments, so every operation is a pure function of state and randomness.
  - the external CryptoJS AES-256-CBC transformation is modelled as a
    length-preserving keyed permutation of the padded symbol stream
    (a keystream addition modulo the symbol bound); the proofs rely only
    on it being a length-preserving permutation for a fixed key and IV,
    which AES-CBC is.  PBKDF2 is modelled as a concrete deterministic
    key-mixing function of (password, salt, iterations).
  - the byte stream handed to the cipher is modelled at Unicode codepoint
    granularity (CryptoJS converts strings to UTF-8 bytes; both encodings
    are injective, and the Malformed-UTF-8 failure of Utf8.stringify is
    modelled as codepoint-validity failure).
  - JSON.stringify of a wallet array is modelled by an injective,
    executable serialisation with a parser that inverts it; JSON text that
    does not parse to a wallet array is modelled as a parse failure.
-/

/-- Bound on Unicode codepoints; a cipher symbol is a number below this. -/
def charBound : Nat := 1114112

/-- Codepoint stream of a string (models CryptoJS.enc.Utf8.parse). -/
def codepoints (s : String) : List Nat := s.data.map Char.toNat

/-- Inverse of `codepoints`: rebuild a string, failing on an invalid
codepoint (models the Malformed-UTF-8 failure of Utf8.stringify). -/
def decodeChars : List Nat → Option (List Char)
  | [] => some []
  | n :: ns =>
    if Nat.isValidChar n then
      match decodeChars ns with
      | some cs => some (Char.ofNat n :: cs)
      | none => none
    else none

/-- Decode a codepoint stream back to a string, failing on invalid input. -/
def decodeString (l : List Nat) : Option String :=
  match decodeChars l with
  | some cs => some (String.mk cs)
  | none => none

/-- PKCS7 padding: append n copies of n, where n = 16 - (len mod 16),
so the padded length is a positive multiple of 16 (CryptoJS.pad.Pkcs7). -/
def pkcs7pad (l : List Nat) : List Nat :=
  l ++ List.replicate (16 - l.length % 16) (16 - l.length % 16)

/-- PKCS7 unpadding as CryptoJS implements it: read the last symbol n and
drop the last n symbols without validating them; a pad value larger than
the data yields the empty stream (negative sigBytes stringifies to ""). -/
def pkcs7unpad (l : List Nat) : List Nat :=
  match l.getLast? with
  | none => []
  | some n => if n ≤ l.length then l.take (l.length - n) else []

/-- Key-derivation stand-in for PBKDF2-HMAC-SHA256(password, salt, iterations):
a concrete deterministic mixing of the three inputs. -/
def pbkdf2 (password : String) (salt iterations : Nat) : Nat :=
  password.data.foldl (fun a c => a * 65599 + c.toNat + 1)
    (salt * 1000003 + iterations * 97 + 11)

/-- Keystream symbol i of the keyed permutation standing in for
AES-256-CBC under a given key and IV. -/
def keystream (key iv i : Nat) : Nat :=
  (key * 31 + iv * 17 + i * 101 + 7) % charBound

/-- Forward direction of the modelled cipher: add the keystream pointwise
modulo `charBound`, starting at position i. -/
def streamAdd (key iv : Nat) : Nat → List Nat → List Nat
  | _, [] => []
  | i, b :: bs => (b + keystream key iv i) % charBound :: streamAdd key iv (i + 1) bs

/-- Inverse direction of the modelled cipher. -/
def streamSub (key iv : Nat) : Nat → List Nat → List Nat
  | _, [] => []
  | i, b :: bs =>
      (b + (charBound - keystream key iv i)) % charBound :: streamSub key iv (i + 1) bs

/-- Encrypted envelope as stored in localStorage: ciphertext, IV, and an
optional salt (absent in the legacy format).  The base64/hex transport
encodings of the source are transparent injective encodings and are
omitted; the ciphertext is kept as the symbol list itself. -/
structure EncryptedData where
  encrypted : List Nat
  iv : Nat
  salt : Option Nat
deriving DecidableEq

/-- Decryption failure (the `throw` sites of decrypt / decryptLegacy and a
Malformed-UTF-8 throw of Utf8.stringify, all caught alike by callers). -/
inductive DecryptError where
  | decryptionFailed : DecryptError
  | missingSalt : DecryptError
deriving DecidableEq

/-- Shared decryption core: undo the cipher with the derived key, unpad,
decode; an empty or undecodable result is a failure (decrypt checks
`if (!decryptedText) throw ...`). -/
def decryptCore (key iv : Nat) (ciphertext : List Nat) : Except DecryptError String :=
  match decodeString (pkcs7unpad (streamSub key iv 0 ciphertext)) with
  | none => Except.error DecryptError.decryptionFailed
  | some t => if t = "" then Except.error DecryptError.decryptionFailed else Except.ok t

/-- lib/encryption.ts encrypt: random 32-byte salt and 16-byte IV (threaded
here as the explicit arguments `salt` and `iv`), PBKDF2 with 100000
iterations, AES-256-CBC with PKCS7 padding; the salt is stored in the
envelope. -/
def encrypt (text password : String) (salt iv : Nat) : EncryptedData :=
  { encrypted := streamAdd (pbkdf2 password salt 100000) iv 0 (pkcs7pad (codepoints text)),
    iv := iv,
    salt := some salt }

/-- lib/encryption.ts decrypt: re-derive the key from the stored salt with
100000 iterations and invert the cipher; fails if the result is empty or
not valid UTF-8.  The source reads `encryptedData.salt` unconditionally,
so a missing salt is a failure as well (Hex.parse of undefined throws). -/
def decrypt (encryptedData : EncryptedData) (password : String) : Except DecryptError String :=
  match encryptedData.salt with
  | none => Except.error DecryptError.missingSalt
  | some s => decryptCore (pbkdf2 password s 100000) encryptedData.iv encryptedData.encrypted

/-- Numeric encoding of the hardcoded legacy salt string "salt" used by
decryptLegacy. -/
def legacySaltCode : Nat := 1935766900

/-- lib/encryption.ts decryptLegacy: fixed salt "salt" and 1000 iterations;
the envelope salt field is ignored. -/
def decryptLegacy (encryptedData : EncryptedData) (password : String) :
    Except DecryptError String :=
  decryptCore (pbkdf2 password legacySaltCode 1000) encryptedData.iv encryptedData.encrypted

/-- Constructor for legacy-format test data: the unique preimage of
`decryptLegacy` for a given plaintext, password and IV (the source never
produces legacy envelopes; pre-upgrade installations did). -/
def mkLegacyEnvelope (text password : String) (iv : Nat) : EncryptedData :=
  { encrypted := streamAdd (pbkdf2 password legacySaltCode 1000) iv 0 (pkcs7pad (codepoints text)),
    iv := iv,
    salt := none }

/-- lib/types.ts Wallet: one derived account. -/
structure Wallet where
  id : String
  name : String
  solanaAddress : String
  ethereumAddress : String
  solanaPrivateKey : String
  ethereumPrivateKey : String
  derivationIndex : Nat
deriving DecidableEq

/-- Unary encoding of a natural number: n marks then a terminator.  Part of
the injective stand-in for JSON.stringify on wallet arrays. -/
def encNatU (n : Nat) : List Char := List.replicate n 'I' ++ ['L']

/-- Length-prefixed encoding of a string. -/
def encStrU (s : String) : List Char := encNatU s.data.length ++ s.data

/-- Encoding of one wallet record: the six string fields then the index. -/
def encWallet (w : Wallet) : List Char :=
  encStrU w.id ++ encStrU w.name ++ encStrU w.solanaAddress ++ encStrU w.ethereumAddress ++
    encStrU w.solanaPrivateKey ++ encStrU w.ethereumPrivateKey ++ encNatU w.derivationIndex

/-- Stand-in for JSON.stringify on a wallet array: count prefix then the
encoded records. -/
def stringifyWallets (ws : List Wallet) : String :=
  String.mk (encNatU ws.length ++ (ws.map encWallet).flatten)

/-- Parser for `encNatU`; consumes the prefix and returns the rest. -/
def parseNatU : List Char → Option (Nat × List Char)
  | [] => none
  | c :: cs =>
    if c = 'L' then some (0, cs)
    else if c = 'I' then
      match parseNatU cs with
      | some (n, rest) => some (n + 1, rest)
      | none => none
    else none

/-- Parser for `encStrU`. -/
def parseStrU (l : List Char) : Option (String × List Char) :=
  match parseNatU l with
  | some (n, rest) =>
    if n ≤ rest.length then some (String.mk (rest.take n), rest.drop n) else none
  | none => none

/-- Parser for one encoded wallet record. -/
def parseWalletU (l : List Char) : Option (Wallet × List Char) := do
  let (i, l1) ← parseStrU l
  let (nm, l2) ← parseStrU l1
  let (sa, l3) ← parseStrU l2
  let (ea, l4) ← parseStrU l3
  let (sk, l5) ← parseStrU l4
  let (ek, l6) ← parseStrU l5
  let (di, l7) ← parseNatU l6
  pure (⟨i, nm, sa, ea, sk, ek, di⟩, l7)

/-- Parser for a run of n encoded wallet records. -/
def parseWalletsAux : Nat → List Char → Option (List Wallet × List Char)
  | 0, l => some ([], l)
  | n + 1, l => do
    let (w, l1) ← parseWalletU l
    let (ws, l2) ← parseWalletsAux n l1
    pure (w :: ws, l2)

/-- Stand-in for JSON.parse of decrypted wallet data: inverts
`stringifyWallets`; any other text is a parse failure (a thrown JSON.parse
or a non-array JSON value, which the wallet pipeline never produces). -/
def parseWallets (s : String) : Option (List Wallet) :=
  match parseNatU s.data with
  | some (n, rest) =>
    match parseWalletsAux n rest with
    | some (ws, []) => if ws.length = n then some ws else none
    | _ => none
  | none => none

/-- Shape of the parsed JSON content of a storage slot, as the code
distinguishes it: a bare array of wallet objects, an envelope object whose
encrypted and iv fields are present (truthy), any other parseable JSON
value, or text on which JSON.parse throws. -/
inductive StoredVal where
  | arr (ws : List Wallet) : StoredVal
  | env (e : EncryptedData) : StoredVal
  | other : StoredVal
  | malformed : StoredVal
deriving DecidableEq

/-- The localStorage slots used by the storage module: crypto_wallet_mnemonic,
crypto_wallet_data (the legacy slot), the current-format encrypted wallet
slot, and crypto_wallet_network.  `none` models an absent key. -/
structure Storage where
  mnemonicSlot : Option StoredVal
  walletSlot : Option StoredVal
  secureSlot : Option StoredVal
  networkSlot : Option String
deriving DecidableEq

/-- storage.ts saveEncryptedMnemonic: encrypt the mnemonic and store it. -/
def saveEncryptedMnemonic (mnemonic password : String) (salt iv : Nat) (st : Storage) :
    Storage :=
  { st with mnemonicSlot := some (StoredVal.env (encrypt mnemonic password salt iv)) }

/-- storage.ts loadEncryptedMnemonic: decrypt the mnemonic slot, using the
legacy path when the stored envelope has no salt; every failure (absent
key, JSON.parse throw, decryption throw) is caught and yields null. -/
def loadEncryptedMnemonic (password : String) (st : Storage) : Option String :=
  match st.mnemonicSlot with
  | none => none
  | some (StoredVal.env e) =>
    match (if e.salt.isSome then decrypt e password else decryptLegacy e password) with
    | Except.ok m => some m
    | Except.error _ => none
  | some _ => none

/-- storage.ts saveEncryptedWalletData: encrypt the wallet array into the
current-format slot and remove the old insecure slot in the same
operation. -/
def saveEncryptedWalletData (wallets : List Wallet) (password : String) (salt iv : Nat)
    (st : Storage) : Storage :=
  { st with secureSlot := some (StoredVal.env (encrypt (stringifyWallets wallets) password salt iv)),
            walletSlot := none }

/-- storage.ts cleanupLegacyWalletData: remove the legacy slot if present. -/
def cleanupLegacyWalletData (st : Storage) : Storage :=
  { st with walletSlot := none }

/-- storage.ts hasInsecureWalletData: the legacy slot parses to an array;
parse failures are caught and count as false. -/
def hasInsecureWalletData (st : Storage) : Bool :=
  match st.walletSlot with
  | some (StoredVal.arr _) => true
  | _ => false

/-- storage.ts saveNetwork. -/
def saveNetwork (network : String) (st : Storage) : Storage :=
  { st with networkSlot := some network }

/-- storage.ts loadNetwork: the stored value, or the mainnet default. -/
def loadNetwork (st : Storage) : String :=
  st.networkSlot.getD "mainnet"

/-- Fall-through part of storage.ts loadEncryptedWalletData: the legacy
slot is consulted only when the current-format slot did not resolve.  A
bare array is re-encrypted into the secure slot and returned; an envelope
is decrypted (legacy path when no salt), parsed, re-encrypted into the
secure slot, and returned; each failure is caught and yields the empty
array with storage untouched, since every throw precedes the writes. -/
def loadLegacyWalletPart (password : String) (salt iv : Nat) (st : Storage) :
    List Wallet × Storage :=
  match st.walletSlot with
  | none => ([], st)
  | some StoredVal.malformed => ([], st)
  | some (StoredVal.arr ws) =>
    (ws, cleanupLegacyWalletData (saveEncryptedWalletData ws password salt iv st))
  | some (StoredVal.env e) =>
    match (if e.salt.isSome then decrypt e password else decryptLegacy e password) with
    | Except.error _ => ([], st)
    | Except.ok t =>
      match parseWallets t with
      | none => ([], st)
      | some ws =>
        (ws, cleanupLegacyWalletData (saveEncryptedWalletData ws password salt iv st))
  | some StoredVal.other => ([], st)

/-- storage.ts loadEncryptedWalletData: try the current-format slot first
(only an envelope with salt, encrypted and iv all present is accepted and
decrypted in place); otherwise fall through to the legacy slot with the
migration side effects of `loadLegacyWalletPart`. -/
def loadEncryptedWalletData (password : String) (salt iv : Nat) (st : Storage) :
    List Wallet × Storage :=
  match st.secureSlot with
  | some StoredVal.malformed => ([], st)
  | some (StoredVal.env e) =>
    if e.salt.isSome then
      match decrypt e password with
      | Except.error _ => ([], st)
      | Except.ok t =>
        match parseWallets t with
        | none => ([], st)
        | some ws => (ws, st)
    else loadLegacyWalletPart password salt iv st
  | _ => loadLegacyWalletPart password salt iv st

/-- storage.ts getWalletDataStatus: shape-only detection, no password.  A
JSON.parse throw aborts the remaining checks (the catch returns the status
collected so far). -/
structure WalletDataStatus where
  hasSecureData : Bool
  hasInsecureData : Bool
  hasLegacyEncrypted : Bool
deriving DecidableEq

/-- storage.ts getWalletDataStatus, see `WalletDataStatus`. -/
def getWalletDataStatus (st : Storage) : WalletDataStatus :=
  match st.secureSlot with
  | some StoredVal.malformed =>
    { hasSecureData := false, hasInsecureData := false, hasLegacyEncrypted := false }
  | s1 =>
    let hasSecure : Bool :=
      match s1 with
      | some (StoredVal.env e) => e.salt.isSome
      | _ => false
    match st.walletSlot with
    | some StoredVal.malformed =>
      { hasSecureData := hasSecure, hasInsecureData := false, hasLegacyEncrypted := false }
    | some (StoredVal.arr _) =>
      { hasSecureData := hasSecure, hasInsecureData := true, hasLegacyEncrypted := false }
    | some (StoredVal.env _) =>
      { hasSecureData := hasSecure, hasInsecureData := false, hasLegacyEncrypted := true }
    | _ =>
      { hasSecureData := hasSecure, hasInsecureData := false, hasLegacyEncrypted := false }

/-- The throw site of storage.ts saveWalletState when no password is
available ("Password required for secure wallet storage"). -/
inductive SaveError where
  | passwordRequired : SaveError
deriving DecidableEq

/-- Result shape of storage.ts loadWalletState. -/
structure WalletStateOut where
  wallets : List Wallet
  network : String
  isUnlocked : Bool
deriving DecidableEq

/-- storage.ts loadWalletState: with a password, delegate to
loadEncryptedWalletData (including its migration side effects); with no
password, every branch deliberately returns the empty wallet list, even
when the insecure slot holds a plaintext array. -/
def loadWalletState (password : Option String) (salt iv : Nat) (st : Storage) :
    WalletStateOut × Storage :=
  match password with
  | some p =>
    let r := loadEncryptedWalletData p salt iv st
    ({ wallets := r.1, network := loadNetwork r.2, isUnlocked := false }, r.2)
  | none =>
    let hasSecureData := st.secureSlot.isSome
    if !hasSecureData then
      if hasInsecureWalletData st then
        ({ wallets := [], network := loadNetwork st, isUnlocked := false }, st)
      else
        ({ wallets := [], network := loadNetwork st, isUnlocked := false }, st)
    else
      ({ wallets := [], network := loadNetwork st, isUnlocked := false }, st)

/-- storage.ts saveWalletState: merge the partial state over
loadWalletState() (so the wallets key is always an array, hence truthy in
the source), then refuse without a password, or encrypt into the secure
slot and remove the legacy slot; finally persist the network value, which
is always truthy after the merge. -/
def saveWalletState (wallets : Option (List Wallet)) (network : Option String)
    (password : Option String) (salt iv : Nat) (st : Storage) : Except SaveError Storage :=
  let newWallets := wallets.getD []
  let newNetwork := network.getD (loadNetwork st)
  match password with
  | none => Except.error SaveError.passwordRequired
  | some p =>
    Except.ok (saveNetwork newNetwork (saveEncryptedWalletData newWallets p salt iv st))

/-- Result of storage.ts migrateToSecureStorage. -/
structure MigrationResult where
  foundInsecureData : Bool
  migrationSummary : String
deriving DecidableEq

/-- Summary text when nothing was migrated. -/
def alreadySecureMsg : String := "✅ Already secure"

/-- Summary text returned by the catch block of migrateToSecureStorage. -/
def migrationFailedMsg : String := "❌ Migration failed - please check password"

/-- First phase of storage.ts migrateToSecureStorage: the legacy wallet
slot.  An array is re-encrypted and the slot removed; an envelope is
decrypted (legacy path when unsalted), parsed, re-encrypted, and the slot
removed; a throw (JSON.parse, decryption, wallet parse) aborts with the
storage as mutated so far, which here is unchanged since every throw
precedes the writes. -/
def migrateWalletPhase (password : String) (salt iv : Nat) (st : Storage) :
    Except Storage (Bool × List String × Storage) :=
  match st.walletSlot with
  | none => Except.ok (false, [], st)
  | some StoredVal.malformed => Except.error st
  | some (StoredVal.arr ws) =>
    Except.ok (true, ["🔒 Secured wallet data with encryption"],
      cleanupLegacyWalletData (saveEncryptedWalletData ws password salt iv st))
  | some (StoredVal.env e) =>
    match (if e.salt.isSome then decrypt e password else decryptLegacy e password) with
    | Except.error _ => Except.error st
    | Except.ok t =>
      match parseWallets t with
      | none => Except.error st
      | some ws =>
        Except.ok (false, ["🔄 Upgraded to secure storage"],
          cleanupLegacyWalletData (saveEncryptedWalletData ws password salt iv st))
  | some StoredVal.other => Except.ok (false, [], st)

/-- Second phase of storage.ts migrateToSecureStorage: the mnemonic slot.
A stored envelope without salt is decrypted with the legacy path and
re-encrypted with a fresh salt; one with salt is left alone; junk content
(array or other object without a salt field) makes the legacy decrypt
call throw on its missing fields, aborting with the state unchanged. -/
def migrateMnemonicPhase (password : String) (salt iv : Nat) (st : Storage) :
    Except Storage (List String × Storage) :=
  match st.mnemonicSlot with
  | none => Except.ok ([], st)
  | some StoredVal.malformed => Except.error st
  | some (StoredVal.env e) =>
    if e.salt.isSome then Except.ok ([], st)
    else
      match decryptLegacy e password with
      | Except.error _ => Except.error st
      | Except.ok m =>
        Except.ok (["🔄 Upgraded mnemonic encryption"], saveEncryptedMnemonic m password salt iv st)
  | some (StoredVal.arr _) => Except.error st
  | some StoredVal.other => Except.error st

/-- storage.ts migrateToSecureStorage: run both phases; any throw is
caught and reported as the failure summary with foundInsecureData false,
keeping the storage as mutated so far; on success, join the collected
messages or report already secure. -/
def migrateToSecureStorage (password : String) (salt1 iv1 salt2 iv2 : Nat) (st : Storage) :
    MigrationResult × Storage :=
  match migrateWalletPhase password salt1 iv1 st with
  | Except.error stE =>
    ({ foundInsecureData := false, migrationSummary := migrationFailedMsg }, stE)
  | Except.ok (found, msgs1, st1) =>
    match migrateMnemonicPhase password salt2 iv2 st1 with
    | Except.error stE =>
      ({ foundInsecureData := false, migrationSummary := migrationFailedMsg }, stE)
    | Except.ok (msgs2, st2) =>
      let msgs := msgs1 ++ msgs2
      ({ foundInsecureData := found,
         migrationSummary :=
           if msgs.isEmpty then alreadySecureMsg else String.intercalate " | " msgs }, st2)

/-- Address and private key pair produced by a chain derivation. -/
structure KeyPair where
  address : String
  privateKey : String
deriving DecidableEq

/-- walletUtils.ts generateSolanaWallet.  The SLIP-0010 Ed25519 derivation
is performed by external libraries (bip39, ed25519-hd-key, solana web3);
it is modelled as a concrete deterministic stand-in, which is all the
registry-level properties use (the code derives a pure function of the
mnemonic and the index). -/
def generateSolanaWallet (mnemonic : String) (index : Nat) : KeyPair :=
  { address := "sol-addr:" ++ mnemonic ++ ":" ++ toString index,
    privateKey := "sol-key:" ++ mnemonic ++ ":" ++ toString index }

/-- walletUtils.ts generateEthereumWallet, modelled like
`generateSolanaWallet` (BIP32 secp256k1 derivation by the ethers
library). -/
def generateEthereumWallet (mnemonic : String) (index : Nat) : KeyPair :=
  { address := "eth-addr:" ++ mnemonic ++ ":" ++ toString index,
    privateKey := "eth-key:" ++ mnemonic ++ ":" ++ toString index }

/-- walletUtils.ts generateWallet: id is "wallet-" plus the index, the
name defaults to "Account " plus index + 1 when the argument is absent or
the empty string (JavaScript falsiness of `name ||`), and derivationIndex
is the index. -/
def generateWallet (mnemonic : String) (index : Nat) (name : Option String) : Wallet :=
  let solanaWallet := generateSolanaWallet mnemonic index
  let ethereumWallet := generateEthereumWallet mnemonic index
  { id := "wallet-" ++ toString index,
    name :=
      match name with
      | some n => if n = "" then "Account " ++ toString (index + 1) else n
      | none => "Account " ++ toString (index + 1),
    solanaAddress := solanaWallet.address,
    ethereumAddress := ethereumWallet.address,
    solanaPrivateKey := solanaWallet.privateKey,
    ethereumPrivateKey := ethereumWallet.privateKey,
    derivationIndex := index }

/-- WalletContext.tsx ExtendedWalletState: the reducer state, including
the in-memory mnemonic and session password.  lockWallet stores the empty
string as mnemonic, so the mnemonic is an optional string checked for
JavaScript falsiness. -/
structure ExtendedWalletState where
  isUnlocked : Bool
  mnemonic : Option String
  wallets : List Wallet
  currentWalletId : Option String
  network : String
  password : Option String
deriving DecidableEq

/-- JavaScript falsiness of an optional string: absent or empty. -/
def strFalsy : Option String → Bool
  | none => true
  | some s => s = ""

/-- WalletContext.tsx addNewAccount: bail out silently without a
mnemonic; the new index is the CURRENT NUMBER of wallets (not the maximum
derivation index plus one); the name is the trimmed argument or the
default; the updated list is persisted via saveWalletState with the
in-memory password (whose absence makes saveWalletState throw before any
dispatch), then the new wallet is appended and selected. -/
def addNewAccount (name : Option String) (salt iv : Nat) (s : ExtendedWalletState)
    (st : Storage) : Except SaveError (ExtendedWalletState × Storage) :=
  if strFalsy s.mnemonic then Except.ok (s, st)
  else
    match s.mnemonic with
    | none => Except.ok (s, st)
    | some m =>
      let newIndex := s.wallets.length
      let defaultName := "Account " ++ toString (newIndex + 1)
      let finalName :=
        match name with
        | none => defaultName
        | some n => if n.trim = "" then defaultName else n.trim
      let newWallet := generateWallet m newIndex (some finalName)
      let updatedWallets := s.wallets ++ [newWallet]
      match saveWalletState (some updatedWallets) none s.password salt iv st with
      | Except.error e => Except.error e
      | Except.ok st2 =>
        Except.ok ({ s with wallets := s.wallets ++ [newWallet],
                            currentWalletId := some newWallet.id }, st2)

/-- Outcome of WalletContext.tsx deleteAccount: the guard branch shows the
"Cannot delete the last account" error toast and returns; a missing
session password makes the save throw; otherwise the account is removed. -/
inductive DeleteOutcome where
  | cannotDeleteLast : DeleteOutcome
  | saveFailed : DeleteOutcome
  | deleted : DeleteOutcome
deriving DecidableEq

/-- WalletContext.tsx deleteAccount: refuse when at most one account
remains (error toast, no state change); otherwise filter out the id,
persist, apply the DELETE_WALLET reducer case (which recomputes the
current selection), and select the first remaining account if the deleted
one was current. -/
def deleteAccount (walletId : String) (salt iv : Nat) (s : ExtendedWalletState) (st : Storage) :
    DeleteOutcome × ExtendedWalletState × Storage :=
  if s.wallets.length ≤ 1 then (DeleteOutcome.cannotDeleteLast, s, st)
  else
    let updatedWallets := s.wallets.filter (fun w => w.id ≠ walletId)
    match saveWalletState (some updatedWallets) none s.password salt iv st with
    | Except.error _ => (DeleteOutcome.saveFailed, s, st)
    | Except.ok st2 =>
      let afterDelete : ExtendedWalletState :=
        { s with
          wallets := updatedWallets,
          currentWalletId :=
            if s.currentWalletId = some walletId then
              if s.wallets.length > 1 then
                (s.wallets.find? (fun w => w.id ≠ walletId)).map (fun w => w.id)
              else none
            else s.currentWalletId }
      let final : ExtendedWalletState :=
        if s.currentWalletId = some walletId ∧ updatedWallets.length > 0 then
          match updatedWallets.head? with
          | some w => { afterDelete with currentWalletId := some w.id }
          | none => afterDelete
        else afterDelete
      (DeleteOutcome.deleted, final, st2)

/-- WalletContext.tsx unlockWallet: decrypt the mnemonic slot; a null or
falsy mnemonic fails the unlock with nothing changed; otherwise load the
wallet data with the password (including its migration side effects) and
apply the dispatches, selecting the first wallet when any were loaded. -/
def unlockWallet (password : String) (salt iv : Nat) (s : ExtendedWalletState) (st : Storage) :
    Bool × ExtendedWalletState × Storage :=
  match loadEncryptedMnemonic password st with
  | none => (false, s, st)
  | some m =>
    if m = "" then (false, s, st)
    else
      let r := loadWalletState (some password) salt iv st
      let ws := r.1.wallets
      (true,
        { s with
          mnemonic := some m,
          wallets := ws,
          isUnlocked := true,
          password := some password,
          currentWalletId :=
            match ws.head? with
            | some w => some w.id
            | none => s.currentWalletId },
        r.2)

/-- Condition under which loadEncryptedWalletData resolves in the
current-format slot: it holds an envelope whose salt is present. -/
def secureBranchTaken : Option StoredVal → Bool
  | some (StoredVal.env e) => e.salt.isSome
  | _ => false

/-- Successful outcomes of the legacy fall-through of
loadEncryptedWalletData for a given legacy-slot value: a bare array loads
as is; an envelope loads when it decrypts (legacy path when unsalted) and
parses to a wallet array. -/
def legacyLoadOk (password : String) : StoredVal → Option (List Wallet)
  | StoredVal.arr ws => some ws
  | StoredVal.env e =>
    match (if e.salt.isSome then decrypt e password else decryptLegacy e password) with
    | Except.ok t => parseWallets t
    | Except.error _ => none
  | _ => none

/-- Observation of the mnemonic slot: whether it holds a salted envelope
(current encryption format). -/
def mnemonicSlotSalted (st : Storage) : Bool :=
  match st.mnemonicSlot with
  | some (StoredVal.env e) => e.salt.isSome
  | _ => false

/-- Storage with every slot absent, used by concrete witnesses. -/
def emptyStorage : Storage :=
  { mnemonicSlot := none, walletSlot := none, secureSlot := none, networkSlot := none }

/-- Unlocked registry state over the given wallets, used by concrete
witnesses. -/
def sampleRegistryState (ws : List Wallet) : ExtendedWalletState :=
  { isUnlocked := true, mnemonic := some "m", wallets := ws,
    currentWalletId := none, network := "mainnet", password := some "pw" }

/-- Storage holding at once a decryptable salted envelope in the
current-format slot, a plaintext wallet array in the legacy slot, and a
decryptable mnemonic envelope, all under password "pw": unlocking
succeeds through the secure branch and never touches the legacy slot. -/
def storageWithSecureAndInsecure : Storage :=
  { mnemonicSlot := some (StoredVal.env (encrypt "mn" "pw" 3 4)),
    walletSlot := some (StoredVal.arr [generateWallet "m" 0 none]),
    secureSlot :=
      some (StoredVal.env (encrypt (stringifyWallets [generateWallet "m" 1 none]) "pw" 5 6)),
    networkSlot := none }

/-- Storage whose legacy wallet slots are empty and whose current-format
slot holds a salted envelope (detection reports it secure), but whose
mnemonic slot still holds a legacy-format envelope decryptable under
password "pw". -/
def storageWithLegacyMnemonic : Storage :=
  { mnemonicSlot := some (StoredVal.env (mkLegacyEnvelope "mn" "pw" 9)),
    walletSlot := none,
    secureSlot :=
      some (StoredVal.env (encrypt (stringifyWallets [generateWallet "m" 1 none]) "pw" 5 6)),
    networkSlot := none }

/-- Storage holding only pre-upgrade data: a decryptable mnemonic
envelope and a plaintext wallet array in the legacy slot, with the
current-format slot empty. -/
def storageInsecureOnly : Storage :=
  { mnemonicSlot := some (StoredVal.env (encrypt "mn" "pw" 3 4)),
    walletSlot := some (StoredVal.arr [generateWallet "m" 0 none]),
    secureSlot := none,
    networkSlot := none }

theorem keystream_lt (key iv i : Nat) : keystream key iv i < charBound := by
  simp only [keystream]
  exact Nat.mod_lt _ (by simp [charBound])

theorem stream_roundtrip_elem (b ks : Nat) (hb : b < charBound) (hks : ks < charBound) :
    ((b + ks) % charBound + (charBound - ks)) % charBound = b := by
  simp only [charBound] at *
  omega

theorem streamSub_streamAdd (key iv : Nat) (l : List Nat) :
    ∀ i : Nat, (∀ b ∈ l, b < charBound) → streamSub key iv i (streamAdd key iv i l) = l := by
  induction l with
  | nil => intro i _; rfl
  | cons b bs ih =>
    intro i h
    have hb : b < charBound := h b (List.mem_cons_self b bs)
    simp only [streamAdd, streamSub, List.cons.injEq]
    exact ⟨stream_roundtrip_elem b _ hb (keystream_lt key iv i),
      ih (i + 1) (fun x hx => h x (List.mem_cons_of_mem b hx))⟩

theorem charToNat_lt (c : Char) : c.toNat < charBound := by
  have h := c.valid
  show c.val.toNat < charBound
  simp only [charBound]
  rcases h with h | h <;> omega

theorem codepoints_lt (s : String) : ∀ b ∈ codepoints s, b < charBound := by
  intro b hb
  simp only [codepoints, List.mem_map] at hb
  obtain ⟨c, _, rfl⟩ := hb
  exact charToNat_lt c

theorem pkcs7pad_lt (l : List Nat) (h : ∀ b ∈ l, b < charBound) :
    ∀ b ∈ pkcs7pad l, b < charBound := by
  intro b hb
  simp only [pkcs7pad, List.mem_append] at hb
  rcases hb with hb | hb
  · exact h b hb
  · have hb2 := List.eq_of_mem_replicate hb
    subst hb2
    simp only [charBound]
    omega

theorem pkcs7unpad_pad (l : List Nat) : pkcs7unpad (pkcs7pad l) = l := by
  have hr : l.length % 16 < 16 := Nat.mod_lt _ (by omega)
  simp only [pkcs7pad, pkcs7unpad]
  rw [List.getLast?_append, List.getLast?_replicate]
  rw [if_neg (by omega : ¬(16 - l.length % 16 = 0))]
  simp only [Option.or_some]
  rw [if_pos (by simp only [List.length_append, List.length_replicate]; omega)]
  have hlen : (l ++ List.replicate (16 - l.length % 16) (16 - l.length % 16)).length
      - (16 - l.length % 16) = l.length := by
    simp [List.length_append, List.length_replicate]
  rw [hlen, List.take_left]

theorem decodeChars_map_toNat (cs : List Char) :
    decodeChars (cs.map Char.toNat) = some cs := by
  induction cs with
  | nil => rfl
  | cons c cs ih =>
    simp only [List.map_cons, decodeChars]
    rw [if_pos (show c.toNat.isValidChar from c.valid), ih, Char.ofNat_toNat]

theorem decodeString_codepoints (s : String) : decodeString (codepoints s) = some s := by
  simp only [decodeString, codepoints, decodeChars_map_toNat]

theorem decryptCore_roundtrip (key iv : Nat) (text : String) (h : text ≠ "") :
    decryptCore key iv (streamAdd key iv 0 (pkcs7pad (codepoints text))) = Except.ok text := by
  simp only [decryptCore]
  rw [streamSub_streamAdd key iv _ 0 (pkcs7pad_lt _ (codepoints_lt text)),
    pkcs7unpad_pad, decodeString_codepoints]
  simp [h]

/-- Round trip of the enhanced codec on nonempty plaintexts. -/
theorem decrypt_encrypt (text password : String) (salt iv : Nat) (h : text ≠ "") :
    decrypt (encrypt text password salt iv) password = Except.ok text := by
  simp only [decrypt, encrypt]
  exact decryptCore_roundtrip _ _ text h

/-- Round trip of the legacy codec on nonempty plaintexts. -/
theorem decryptLegacy_mkLegacyEnvelope (text password : String) (iv : Nat) (h : text ≠ "") :
    decryptLegacy (mkLegacyEnvelope text password iv) password = Except.ok text := by
  simp only [decryptLegacy, mkLegacyEnvelope]
  exact decryptCore_roundtrip _ _ text h

theorem parseNatU_enc (n : Nat) (rest : List Char) :
    parseNatU (encNatU n ++ rest) = some (n, rest) := by
  induction n with
  | zero => rfl
  | succ n ih =>
    have h : encNatU (n + 1) ++ rest = 'I' :: (encNatU n ++ rest) := by
      simp [encNatU, List.replicate_succ]
    rw [h]
    simp only [parseNatU, reduceIte, ih]
    rw [if_neg (by decide : ¬('I' : Char) = 'L')]

theorem parseStrU_enc (s : String) (rest : List Char) :
    parseStrU (encStrU s ++ rest) = some (s, rest) := by
  simp only [parseStrU, encStrU, List.append_assoc, parseNatU_enc]
  rw [if_pos (by simp)]
  rw [List.take_left, List.drop_left]

theorem parseWalletU_enc (w : Wallet) (rest : List Char) :
    parseWalletU (encWallet w ++ rest) = some (w, rest) := by
  cases w with
  | mk i nm sa ea sk ek di =>
    simp only [parseWalletU, encWallet, List.append_assoc, parseStrU_enc, parseNatU_enc,
      Option.bind_eq_bind, Option.some_bind]
    rfl

theorem parseWalletsAux_enc (ws : List Wallet) (rest : List Char) :
    parseWalletsAux ws.length ((ws.map encWallet).flatten ++ rest) = some (ws, rest) := by
  induction ws with
  | nil => rfl
  | cons w ws ih =>
    simp only [List.length_cons, List.map_cons, List.flatten_cons, List.append_assoc,
      parseWalletsAux, parseWalletU_enc, Option.bind_eq_bind, Option.some_bind, ih]
    rfl

theorem parseWallets_stringify (ws : List Wallet) :
    parseWallets (stringifyWallets ws) = some ws := by
  have h : (stringifyWallets ws).data = encNatU ws.length ++ (ws.map encWallet).flatten := rfl
  simp only [parseWallets, h, parseNatU_enc]
  have h2 := parseWalletsAux_enc ws ([] : List Char)
  rw [List.append_nil] at h2
  rw [h2]
  simp

theorem stringifyWallets_ne_empty (ws : List Wallet) : stringifyWallets ws ≠ "" := by
  intro h
  have hd : (stringifyWallets ws).data = [] := by rw [h]
  simp [stringifyWallets, encNatU] at hd

/-- Claim C3: for every storage state, loading wallet state with no
password returns the empty account list (hence no plaintext private
keys), even when the insecure slot holds a plaintext account array, and
leaves storage untouched; the insecure data is not loaded implicitly. -/
theorem c3_no_password_load_empty (st : Storage) (salt iv : Nat) :
    (loadWalletState none salt iv st).1.wallets = [] ∧ (loadWalletState none salt iv st).2 = st := by
  simp only [loadWalletState]
  split
  · split
    · exact ⟨rfl, rfl⟩
    · exact ⟨rfl, rfl⟩
  · exact ⟨rfl, rfl⟩

/-- Claim C6: saving wallet state without a password fails with the
password-required error (and, the throw preceding every write, stores
nothing); saving with a password writes the salted envelope of the
account list to the current-format slot and deletes the insecure legacy
slot in the same operation. -/
theorem c6_save_password_discipline :
    (∀ (wallets : Option (List Wallet)) (network : Option String) (st : Storage) (salt iv : Nat),
      saveWalletState wallets network none salt iv st = Except.error SaveError.passwordRequired)
    ∧ (∀ (ws : List Wallet) (network : Option String) (p : String) (st : Storage) (salt iv : Nat),
        ∃ st2, saveWalletState (some ws) network (some p) salt iv st = Except.ok st2
          ∧ st2.secureSlot = some (StoredVal.env (encrypt (stringifyWallets ws) p salt iv))
          ∧ st2.walletSlot = none) := by
  constructor
  · intro wallets network st salt iv
    rfl
  · intro ws network p st salt iv
    exact ⟨_, rfl, rfl, rfl⟩

/-- Claim C9: deleting the only remaining account is refused with the
cannot-delete-last-account error signal and leaves the registry state and
the persisted storage unchanged. -/
theorem c9_last_account_guard (w : Wallet) (walletId : String) (salt iv : Nat)
    (s : ExtendedWalletState) (st : Storage) (h : s.wallets = [w]) :
    deleteAccount walletId salt iv s st = (DeleteOutcome.cannotDeleteLast, s, st) := by
  simp [deleteAccount, h]

/-- Witness for C9 at a concrete one-account registry. -/
theorem c9_witness :
    deleteAccount "wallet-0" 1 2 (sampleRegistryState [generateWallet "m" 0 none]) emptyStorage
      = (DeleteOutcome.cannotDeleteLast, sampleRegistryState [generateWallet "m" 0 none],
          emptyStorage) :=
  c9_last_account_guard (generateWallet "m" 0 none) "wallet-0" 1 2
    (sampleRegistryState [generateWallet "m" 0 none]) emptyStorage rfl

/-- Claim C4 counterexample: the round trip fails on the empty plaintext:
decryption recovers the empty string and the emptiness guard of decrypt
then throws, so decrypt(encrypt("", P), P) is an error, not "". -/
theorem c4_counterexample :
    decrypt (encrypt "" "pw" 1 2) "pw" = Except.error DecryptError.decryptionFailed := by
  simp only [decrypt, encrypt, decryptCore]
  rw [streamSub_streamAdd _ _ _ 0 (pkcs7pad_lt _ (codepoints_lt "")), pkcs7unpad_pad,
    decodeString_codepoints]
  rfl

/-- Claim C4 (amended): for every NONEMPTY plaintext T, password P and
every choice of the random salt and IV, decrypt(encrypt(T, P), P) returns
exactly T; for the empty plaintext the emptiness guard of decrypt rejects
the correctly recovered text. -/
theorem c4_roundtrip_amended (text password : String) (salt iv : Nat) (h : text ≠ "") :
    decrypt (encrypt text password salt iv) password = Except.ok text :=
  decrypt_encrypt text password salt iv h

/-- Witness for C4 at a concrete nonempty plaintext. -/
theorem c4_witness : decrypt (encrypt "abandon" "pw" 1 2) "pw" = Except.ok "abandon" :=
  c4_roundtrip_amended "abandon" "pw" 1 2 (by decide)

/-- Claim C8: when the legacy slot holds an encrypted envelope whose
decryption fails under the given password, migration aborts with the
failure summary surfaced to the caller and the storage, including the
legacy slot, exactly as it was. -/
theorem c8_migration_failure_preserves_source (e : EncryptedData) (p : String)
    (salt1 iv1 salt2 iv2 : Nat) (st : Storage) (err : DecryptError)
    (h1 : st.walletSlot = some (StoredVal.env e))
    (h2 : (if e.salt.isSome then decrypt e p else decryptLegacy e p) = Except.error err) :
    migrateToSecureStorage p salt1 iv1 salt2 iv2 st =
      ({ foundInsecureData := false, migrationSummary := migrationFailedMsg }, st) := by
  simp [migrateToSecureStorage, migrateWalletPhase, h1, h2]

/-- Witness for C8: an envelope with empty ciphertext decrypts to the
empty string, which the emptiness guard rejects, so migration fails and
preserves the storage. -/
theorem c8_witness :
    migrateToSecureStorage "pw" 1 2 3 4
      { mnemonicSlot := none, walletSlot := some (StoredVal.env ⟨[], 0, some 0⟩),
        secureSlot := none, networkSlot := none }
      = ({ foundInsecureData := false, migrationSummary := migrationFailedMsg },
          { mnemonicSlot := none, walletSlot := some (StoredVal.env ⟨[], 0, some 0⟩),
            secureSlot := none, networkSlot := none }) :=
  c8_migration_failure_preserves_source ⟨[], 0, some 0⟩ "pw" 1 2 3 4 _
    DecryptError.decryptionFailed rfl rfl

/-- Claim C10 counterexample: a supplied name consisting only of
whitespace is blank but truthy in JavaScript, so generateWallet keeps it
verbatim instead of the claimed "Account i+1" default. -/
theorem c10_counterexample :
    (generateWallet "m" 0 (some " ")).name = " " ∧ (" " : String) ≠ "Account 1" := by
  exact ⟨rfl, by decide⟩

/-- Claim C10 (amended): generateWallet(m, i, name) yields id exactly
"wallet-" followed by i and derivationIndex exactly i; the name defaults
to "Account " followed by i+1 exactly when the name argument is absent or
the EMPTY string (a whitespace-only name is kept verbatim; callers such as
addNewAccount trim first, so blank names become the default there); and
any two generated accounts with equal derivationIndex have equal id, so
ids are unique only as long as derivation indices are. -/
theorem c10_generate_wallet_amended (m : String) (i : Nat) (name : Option String) :
    (generateWallet m i name).id = "wallet-" ++ toString i
    ∧ (generateWallet m i name).derivationIndex = i
    ∧ (name = none ∨ name = some "" →
        (generateWallet m i name).name = "Account " ++ toString (i + 1))
    ∧ ∀ (m2 : String) (i2 : Nat) (n2 : Option String),
        (generateWallet m2 i2 n2).derivationIndex = (generateWallet m i name).derivationIndex →
        (generateWallet m2 i2 n2).id = (generateWallet m i name).id := by
  refine ⟨rfl, rfl, ?_, ?_⟩
  · rintro (rfl | rfl)
    · rfl
    · rfl
  · intro m2 i2 n2 h
    have hi : i2 = i := h
    rw [show (generateWallet m2 i2 n2).id = "wallet-" ++ toString i2 from rfl, hi]
    rfl

/-- Witness for C10 at concrete inputs: the default name fires for an
absent name, and equal derivation indices force equal ids across distinct
mnemonics and names. -/
theorem c10_witness :
    (generateWallet "m" 0 none).name = "Account " ++ toString (0 + 1)
    ∧ (generateWallet "x" 0 (some "Custom")).id = (generateWallet "m" 0 none).id := by
  refine ⟨(c10_generate_wallet_amended "m" 0 none).2.2.1 (Or.inl rfl), ?_⟩
  exact (c10_generate_wallet_amended "m" 0 none).2.2.2 "x" 0 (some "Custom") rfl

/-- Claim C2: adding an account computes the new derivation index as the
CURRENT NUMBER of wallets, not the maximum index plus one.  Deleting the
middle account of derivation indices 0, 1, 2 and then adding an account
yields derivationIndex 2 and the duplicate id "wallet-2", where the claim
(and the spec's data-model invariant) requires index 3. -/
theorem c2_index_reuse_evaluation :
    (match
        (match deleteAccount "wallet-1" 1 2
            (sampleRegistryState
              [generateWallet "m" 0 none, generateWallet "m" 1 none, generateWallet "m" 2 none])
            emptyStorage with
          | (_, s1, st1) => addNewAccount none 3 4 s1 st1) with
      | Except.ok (s2, _) => (s2.wallets.map Wallet.derivationIndex, s2.wallets.map Wallet.id)
      | Except.error _ => ([], []))
    = ([0, 2, 2], ["wallet-0", "wallet-2", "wallet-2"]) := by
  decide

theorem loadLegacyWalletPart_migrates (p : String) (salt iv : Nat) (st : Storage)
    (v : StoredVal) (ws : List Wallet) (h3 : st.walletSlot = some v)
    (h4 : legacyLoadOk p v = some ws) :
    loadLegacyWalletPart p salt iv st =
      (ws, cleanupLegacyWalletData (saveEncryptedWalletData ws p salt iv st)) := by
  cases v with
  | arr ws2 =>
    simp only [legacyLoadOk, Option.some.injEq] at h4
    subst h4
    simp [loadLegacyWalletPart, h3]
  | env e =>
    simp only [legacyLoadOk] at h4
    cases hd : (if e.salt.isSome then decrypt e p else decryptLegacy e p) with
    | error err =>
      rw [hd] at h4
      simp at h4
    | ok t =>
      rw [hd] at h4
      simp only at h4
      simp [loadLegacyWalletPart, h3, hd, h4]
  | other => simp [legacyLoadOk] at h4
  | malformed => simp [legacyLoadOk] at h4

theorem loadEncryptedWalletData_migrates (p : String) (salt iv : Nat) (st : Storage)
    (v : StoredVal) (ws : List Wallet)
    (h1 : st.secureSlot ≠ some StoredVal.malformed)
    (h2 : secureBranchTaken st.secureSlot = false)
    (h3 : st.walletSlot = some v) (h4 : legacyLoadOk p v = some ws) :
    loadEncryptedWalletData p salt iv st =
      (ws, cleanupLegacyWalletData (saveEncryptedWalletData ws p salt iv st)) := by
  have hL := loadLegacyWalletPart_migrates p salt iv st v ws h3 h4
  cases hss : st.secureSlot with
  | none => simp [loadEncryptedWalletData, hss, hL]
  | some sv =>
    cases sv with
    | malformed => exact absurd hss h1
    | env e =>
      have he : e.salt.isSome = false := by
        simpa [secureBranchTaken, hss] using h2
      simp [loadEncryptedWalletData, hss, he, hL]
    | arr ws2 => simp [loadEncryptedWalletData, hss, hL]
    | other => simp [loadEncryptedWalletData, hss, hL]

theorem getWalletDataStatus_after_save (ws : List Wallet) (p : String) (salt iv : Nat)
    (st : Storage) :
    getWalletDataStatus (cleanupLegacyWalletData (saveEncryptedWalletData ws p salt iv st)) =
      { hasSecureData := true, hasInsecureData := false, hasLegacyEncrypted := false } := rfl

/-- Claim C1 (amended): whenever the current-format slot does not resolve
(it is absent, not an envelope, a saltless envelope, or anything but
well-formed salted envelope JSON) so that the load takes the legacy
fall-through, and the legacy slot holds data the password successfully
loads, a successful unlock leaves the legacy slots empty and the secure
slot holding the salted envelope of the accounts: detection then reports
hasInsecureData false, hasLegacyEncrypted false and hasSecureData true. -/
theorem c1_unlock_cleans_legacy_amended (p : String) (salt iv : Nat)
    (s : ExtendedWalletState) (st : Storage) (v : StoredVal) (ws : List Wallet)
    (h1 : st.secureSlot ≠ some StoredVal.malformed)
    (h2 : secureBranchTaken st.secureSlot = false)
    (h3 : st.walletSlot = some v)
    (h4 : legacyLoadOk p v = some ws)
    (h5 : (unlockWallet p salt iv s st).1 = true) :
    getWalletDataStatus (unlockWallet p salt iv s st).2.2 =
      { hasSecureData := true, hasInsecureData := false, hasLegacyEncrypted := false } := by
  cases hm : loadEncryptedMnemonic p st with
  | none => simp [unlockWallet, hm] at h5
  | some m =>
    by_cases hme : m = ""
    · simp [unlockWallet, hm, hme] at h5
    · have hl := loadEncryptedWalletData_migrates p salt iv st v ws h1 h2 h3 h4
      simp [unlockWallet, hm, hme, loadWalletState, hl, getWalletDataStatus_after_save]

/-- Witness for C1 at a concrete pre-upgrade storage state: the legacy
array migrates during unlock and detection reports secure-only. -/
theorem c1_witness :
    getWalletDataStatus
        (unlockWallet "pw" 1 2 (sampleRegistryState []) storageInsecureOnly).2.2 =
      { hasSecureData := true, hasInsecureData := false, hasLegacyEncrypted := false } :=
  c1_unlock_cleans_legacy_amended "pw" 1 2 (sampleRegistryState []) storageInsecureOnly
    (StoredVal.arr [generateWallet "m" 0 none]) [generateWallet "m" 0 none]
    (by decide) rfl rfl rfl (by decide)

set_option maxRecDepth 8192 in
/-- Claim C1 counterexample: with BOTH a decryptable current-format
envelope and a plaintext array in the legacy slot, unlock succeeds
through the secure branch and the legacy plaintext survives it:
detection still reports hasInsecureData true after the successful
unlock, refuting the claim as stated for this storage state. -/
theorem c1_counterexample :
    (unlockWallet "pw" 7 8 (sampleRegistryState []) storageWithSecureAndInsecure).1 = true
    ∧ (getWalletDataStatus
          (unlockWallet "pw" 7 8 (sampleRegistryState []) storageWithSecureAndInsecure).2.2
        ).hasInsecureData = true := by
  decide

theorem encrypt_salt (t p : String) (s i : Nat) : (encrypt t p s i).salt = some s := rfl

theorem mkLegacyEnvelope_salt (t p : String) (i : Nat) :
    (mkLegacyEnvelope t p i).salt = none := rfl

theorem migrateWalletPhase_skip (p : String) (a b : Nat) (st : Storage)
    (h : st.walletSlot = none ∨ st.walletSlot = some StoredVal.other) :
    migrateWalletPhase p a b st = Except.ok (false, [], st) := by
  rcases h with h | h <;> simp [migrateWalletPhase, h]

theorem migrateWalletPhase_error_eq (p : String) (a b : Nat) (st stE : Storage)
    (h : migrateWalletPhase p a b st = Except.error stE) :
    stE = st ∧ ∀ a2 b2 : Nat, migrateWalletPhase p a2 b2 st = Except.error st := by
  cases hws : st.walletSlot with
  | none => simp [migrateWalletPhase, hws] at h
  | some v =>
    cases v with
    | malformed =>
      simp only [migrateWalletPhase, hws, Except.error.injEq] at h
      exact ⟨h.symm, fun a2 b2 => by simp [migrateWalletPhase, hws]⟩
    | arr ws => simp [migrateWalletPhase, hws] at h
    | other => simp [migrateWalletPhase, hws] at h
    | env e =>
      simp only [migrateWalletPhase, hws] at h
      cases hd : (if e.salt.isSome then decrypt e p else decryptLegacy e p) with
      | error err =>
        simp only [hd, Except.error.injEq] at h
        exact ⟨h.symm, fun a2 b2 => by simp [migrateWalletPhase, hws, hd]⟩
      | ok t =>
        simp only [hd] at h
        cases hp : parseWallets t with
        | none =>
          simp only [hp, Except.error.injEq] at h
          exact ⟨h.symm, fun a2 b2 => by simp [migrateWalletPhase, hws, hd, hp]⟩
        | some ws => simp [hp] at h

theorem migrateWalletPhase_ok_shape (p : String) (a b : Nat) (st st1 : Storage) (f : Bool)
    (m : List String) (h : migrateWalletPhase p a b st = Except.ok (f, m, st1)) :
    st1.mnemonicSlot = st.mnemonicSlot
    ∧ (st1.walletSlot = none ∨ st1.walletSlot = some StoredVal.other) := by
  cases hws : st.walletSlot with
  | none =>
    simp only [migrateWalletPhase, hws, Except.ok.injEq, Prod.mk.injEq] at h
    rw [← h.2.2]
    exact ⟨rfl, Or.inl hws⟩
  | some v =>
    cases v with
    | malformed => simp [migrateWalletPhase, hws] at h
    | arr ws =>
      simp only [migrateWalletPhase, hws, Except.ok.injEq, Prod.mk.injEq] at h
      rw [← h.2.2]
      exact ⟨rfl, Or.inl rfl⟩
    | other =>
      simp only [migrateWalletPhase, hws, Except.ok.injEq, Prod.mk.injEq] at h
      rw [← h.2.2]
      exact ⟨rfl, Or.inr hws⟩
    | env e =>
      simp only [migrateWalletPhase, hws] at h
      cases hd : (if e.salt.isSome then decrypt e p else decryptLegacy e p) with
      | error err => simp [hd] at h
      | ok t =>
        simp only [hd] at h
        cases hp : parseWallets t with
        | none => simp [hp] at h
        | some ws =>
          simp only [hp, Except.ok.injEq, Prod.mk.injEq] at h
          rw [← h.2.2]
          exact ⟨rfl, Or.inl rfl⟩

theorem migrateMnemonicPhase_skip (p : String) (a b : Nat) (st : Storage)
    (h : st.mnemonicSlot = none
      ∨ ∃ e, st.mnemonicSlot = some (StoredVal.env e) ∧ e.salt.isSome = true) :
    migrateMnemonicPhase p a b st = Except.ok ([], st) := by
  rcases h with h | ⟨e, he, hs⟩
  · simp [migrateMnemonicPhase, h]
  · simp [migrateMnemonicPhase, he, hs]

theorem migrateMnemonicPhase_error_eq (p : String) (a b : Nat) (st stE : Storage)
    (h : migrateMnemonicPhase p a b st = Except.error stE) :
    stE = st ∧ ∀ a2 b2 : Nat, migrateMnemonicPhase p a2 b2 st = Except.error st := by
  cases hms : st.mnemonicSlot with
  | none => simp [migrateMnemonicPhase, hms] at h
  | some v =>
    cases v with
    | malformed =>
      simp only [migrateMnemonicPhase, hms, Except.error.injEq] at h
      exact ⟨h.symm, fun a2 b2 => by simp [migrateMnemonicPhase, hms]⟩
    | arr ws =>
      simp only [migrateMnemonicPhase, hms, Except.error.injEq] at h
      exact ⟨h.symm, fun a2 b2 => by simp [migrateMnemonicPhase, hms]⟩
    | other =>
      simp only [migrateMnemonicPhase, hms, Except.error.injEq] at h
      exact ⟨h.symm, fun a2 b2 => by simp [migrateMnemonicPhase, hms]⟩
    | env e =>
      simp only [migrateMnemonicPhase, hms] at h
      cases hs : e.salt.isSome with
      | true => simp [hs] at h
      | false =>
        simp only [hs, Bool.false_eq_true, if_false] at h
        cases hd : decryptLegacy e p with
        | error err =>
          simp only [hd, Except.error.injEq] at h
          exact ⟨h.symm, fun a2 b2 => by simp [migrateMnemonicPhase, hms, hs, hd]⟩
        | ok mn => simp [hd] at h

theorem migrateMnemonicPhase_ok_shape (p : String) (a b : Nat) (st st1 : Storage)
    (m : List String) (h : migrateMnemonicPhase p a b st = Except.ok (m, st1)) :
    st1.walletSlot = st.walletSlot
    ∧ (st1.mnemonicSlot = none
       ∨ ∃ e, st1.mnemonicSlot = some (StoredVal.env e) ∧ e.salt.isSome = true) := by
  cases hms : st.mnemonicSlot with
  | none =>
    simp only [migrateMnemonicPhase, hms, Except.ok.injEq, Prod.mk.injEq] at h
    rw [← h.2]
    exact ⟨rfl, Or.inl hms⟩
  | some v =>
    cases v with
    | malformed => simp [migrateMnemonicPhase, hms] at h
    | arr ws => simp [migrateMnemonicPhase, hms] at h
    | other => simp [migrateMnemonicPhase, hms] at h
    | env e =>
      simp only [migrateMnemonicPhase, hms] at h
      cases hs : e.salt.isSome with
      | true =>
        simp only [hs, if_true] at h
        simp only [Except.ok.injEq, Prod.mk.injEq] at h
        rw [← h.2]
        exact ⟨rfl, Or.inr ⟨e, hms, hs⟩⟩
      | false =>
        simp only [hs, Bool.false_eq_true, if_false] at h
        cases hd : decryptLegacy e p with
        | error err => simp [hd] at h
        | ok mn =>
          simp only [hd, Except.ok.injEq, Prod.mk.injEq] at h
          rw [← h.2]
          refine ⟨rfl, Or.inr ⟨encrypt mn p a b, rfl, rfl⟩⟩

/-- Claim C7 (amended): when nothing is left to migrate in ANY slot (the
legacy wallet slot is empty and the mnemonic slot is absent or already a
salted envelope), migrate changes no storage slot and reports already
secure with foundInsecureData false; and unconditionally, running migrate
twice in a row produces the same final storage state as running it once.
The amendment is forced because a state with no legacy wallet slots
populated can still hold a legacy-format mnemonic envelope, which
migrate re-encrypts. -/
theorem c7_migration_idempotent_amended (p : String) (a b c d a2 b2 c2 d2 : Nat) (st : Storage)
    (hW : st.walletSlot = none)
    (hM : st.mnemonicSlot = none
      ∨ ∃ e, st.mnemonicSlot = some (StoredVal.env e) ∧ e.salt.isSome = true) :
    migrateToSecureStorage p a b c d st
      = ({ foundInsecureData := false, migrationSummary := alreadySecureMsg }, st)
    ∧ ∀ st0 : Storage,
        (migrateToSecureStorage p a2 b2 c2 d2 (migrateToSecureStorage p a b c d st0).2).2
          = (migrateToSecureStorage p a b c d st0).2 := by
  constructor
  · have h1 := migrateWalletPhase_skip p a b st (Or.inl hW)
    have h2 := migrateMnemonicPhase_skip p c d st hM
    simp [migrateToSecureStorage, h1, h2]
  · intro st0
    cases hwp : migrateWalletPhase p a b st0 with
    | error stE =>
      obtain ⟨heq, hre⟩ := migrateWalletPhase_error_eq p a b st0 stE hwp
      subst heq
      simp [migrateToSecureStorage, hwp, hre a2 b2]
    | ok tri =>
      obtain ⟨f, m1, st1⟩ := tri
      cases hmp : migrateMnemonicPhase p c d st1 with
      | error stE =>
        obtain ⟨heq, hre⟩ := migrateMnemonicPhase_error_eq p c d st1 stE hmp
        have hshape := migrateWalletPhase_ok_shape p a b st0 st1 f m1 hwp
        have hw2 := migrateWalletPhase_skip p a2 b2 st1 hshape.2
        subst heq
        simp [migrateToSecureStorage, hwp, hmp, hw2, hre c2 d2]
      | ok pr =>
        obtain ⟨m2, st2⟩ := pr
        have hshapeW := migrateWalletPhase_ok_shape p a b st0 st1 f m1 hwp
        have hshapeM := migrateMnemonicPhase_ok_shape p c d st1 st2 m2 hmp
        have hw2 : migrateWalletPhase p a2 b2 st2 = Except.ok (false, [], st2) := by
          apply migrateWalletPhase_skip
          rw [hshapeM.1]
          exact hshapeW.2
        have hm2 := migrateMnemonicPhase_skip p c2 d2 st2 hshapeM.2
        simp [migrateToSecureStorage, hwp, hmp, hw2, hm2]

/-- Witness for C7 at a concrete secure storage state: migrate is a no-op
reporting already secure, and migrating twice equals migrating once. -/
theorem c7_witness :
    migrateToSecureStorage "pw" 1 2 3 4
        { mnemonicSlot := some (StoredVal.env (encrypt "mn" "pw" 3 4)), walletSlot := none,
          secureSlot := some (StoredVal.env (encrypt "t" "pw" 5 6)), networkSlot := none }
      = ({ foundInsecureData := false, migrationSummary := alreadySecureMsg },
          { mnemonicSlot := some (StoredVal.env (encrypt "mn" "pw" 3 4)), walletSlot := none,
            secureSlot := some (StoredVal.env (encrypt "t" "pw" 5 6)), networkSlot := none })
    ∧ (migrateToSecureStorage "pw" 5 6 7 8
          (migrateToSecureStorage "pw" 1 2 3 4 storageInsecureOnly).2).2
        = (migrateToSecureStorage "pw" 1 2 3 4 storageInsecureOnly).2 := by
  refine ⟨?_, ?_⟩
  · exact (c7_migration_idempotent_amended "pw" 1 2 3 4 5 6 7 8 _ rfl
      (Or.inr ⟨encrypt "mn" "pw" 3 4, rfl, rfl⟩)).1
  · exact (c7_migration_idempotent_amended "pw" 1 2 3 4 5 6 7 8
      { mnemonicSlot := none, walletSlot := none, secureSlot := none, networkSlot := none }
      rfl (Or.inl rfl)).2 storageInsecureOnly

/-- Claim C7 counterexample: a state whose legacy wallet slots are empty
and which detection reports as secure still has a legacy-format mnemonic
envelope; migrate(P) re-encrypts the mnemonic slot (the state changes)
and reports the mnemonic upgrade, not already secure, so migrating an
already-SECURE state (no legacy slots populated) is not always a no-op. -/
theorem c7_counterexample :
    getWalletDataStatus storageWithLegacyMnemonic =
      { hasSecureData := true, hasInsecureData := false, hasLegacyEncrypted := false }
    ∧ mnemonicSlotSalted storageWithLegacyMnemonic = false
    ∧ mnemonicSlotSalted (migrateToSecureStorage "pw" 1 2 3 4 storageWithLegacyMnemonic).2 = true
    ∧ (migrateToSecureStorage "pw" 1 2 3 4 storageWithLegacyMnemonic).1.migrationSummary
        ≠ alreadySecureMsg := by
  have hd := decryptLegacy_mkLegacyEnvelope "mn" "pw" 9 (by decide)
  have hw := migrateWalletPhase_skip "pw" 1 2 storageWithLegacyMnemonic (Or.inl rfl)
  have hmp : migrateMnemonicPhase "pw" 3 4 storageWithLegacyMnemonic =
      Except.ok (["🔄 Upgraded mnemonic encryption"],
        saveEncryptedMnemonic "mn" "pw" 3 4 storageWithLegacyMnemonic) := by
    simp only [migrateMnemonicPhase]
    rw [show storageWithLegacyMnemonic.mnemonicSlot
        = some (StoredVal.env (mkLegacyEnvelope "mn" "pw" 9)) from rfl]
    simp [mkLegacyEnvelope_salt, hd]
  refine ⟨rfl, rfl, ?_, ?_⟩
  · simp [migrateToSecureStorage, hw, hmp, mnemonicSlotSalted, saveEncryptedMnemonic,
      encrypt_salt]
  · simp only [migrateToSecureStorage, hw, hmp]
    decide

/-- Characterisation of the only wrong-password detection decrypt
performs: decryption succeeds with text t exactly when undoing the cipher
with the derived key, unpadding and decoding yields the nonempty t; the
code carries no integrity check (no MAC), so rejection of a wrong
password rests entirely on the decoded stream being empty or invalid. -/
theorem decryptCore_ok_iff (key iv : Nat) (ct : List Nat) (t : String) :
    decryptCore key iv ct = Except.ok t ↔
      decodeString (pkcs7unpad (streamSub key iv 0 ct)) = some t ∧ t ≠ "" := by
  unfold decryptCore
  split
  · rename_i hnone
    simp [hnone]
  · rename_i u hsome
    rw [hsome]
    by_cases hu : u = ""
    · subst hu
      simp only [reduceIte]
      constructor
      · intro hc
        cases hc
      · rintro ⟨he, hne⟩
        rw [Option.some.injEq] at he
        exact absurd he.symm hne
    · rw [if_neg hu]
      constructor
      · intro hc
        rw [Except.ok.injEq] at hc
        subst hc
        exact ⟨rfl, hu⟩
      · rintro ⟨he, hne⟩
        rw [Option.some.injEq] at he
        rw [he]
